import Mathlib

/-!
Shallow embedding of the auto-framing core of the `smart_camera` repository
(`src/smart_camera/core/smoothing.py`, `tracking_state.py`,
`frame_processor.py`, `controller.py`, and `src/smart_camera/config/settings.py`),
together with theorems settling the behavioural claims about it.

Python floats are modelled as `ℚ`, Python ints as `ℤ` (or `ℕ` where the source
value is a size), `None` as `Option.none`.  Methods that mutate `self` are
modelled as functions returning the result together with the updated state.
-/

namespace SmartCamera

/-- The clamp `max(0.0, min(1.0, alpha))` performed by
`ExponentialSmoother.__init__` and `ExponentialSmoother.set_alpha`
(smoothing.py). -/
def clamp01 (a : ℚ) : ℚ := max 0 (min 1 a)

/-- State of `ExponentialSmoother` (smoothing.py): the smoothing factor
`alpha` and the optional stored smoothed value. -/
structure ExponentialSmoother where
  alpha : ℚ
  smoothed_value : Option ℚ
deriving DecidableEq

/-- `ExponentialSmoother.__init__(alpha)`: stores `max(0.0, min(1.0, alpha))`
and no smoothed value. -/
def ExponentialSmoother.init (alpha : ℚ) : ExponentialSmoother :=
  { alpha := clamp01 alpha, smoothed_value := none }

/-- `ExponentialSmoother.smooth(new_value)`: the first value passes through
unchanged; afterwards the exponential moving average
`alpha * new_value + (1 - alpha) * smoothed_value` is taken.  Either way the
result is stored and returned. -/
def ExponentialSmoother.smooth (s : ExponentialSmoother) (new_value : ℚ) :
    ℚ × ExponentialSmoother :=
  match s.smoothed_value with
  | none => (new_value, { s with smoothed_value := some new_value })
  | some prev =>
      let v := s.alpha * new_value + (1 - s.alpha) * prev
      (v, { s with smoothed_value := some v })

/-- `ExponentialSmoother.reset()`: clears the stored value. -/
def ExponentialSmoother.reset (s : ExponentialSmoother) : ExponentialSmoother :=
  { s with smoothed_value := none }

/-- `ExponentialSmoother.set_alpha(alpha)`: replaces the smoothing factor by
its clamp into `[0, 1]`, leaving the stored value alone. -/
def ExponentialSmoother.set_alpha (s : ExponentialSmoother) (alpha : ℚ) :
    ExponentialSmoother :=
  { s with alpha := clamp01 alpha }

/-- Feed a list of inputs through `ExponentialSmoother.smooth` in order,
collecting the returned values and the final state. -/
def ExponentialSmoother.runList (s : ExponentialSmoother) :
    List ℚ → List ℚ × ExponentialSmoother
  | [] => ([], s)
  | v :: vs =>
      let r := s.smooth v
      let rest := r.2.runList vs
      (r.1 :: rest.1, rest.2)

/-- State of `TransformSmoother` (smoothing.py): one `ExponentialSmoother`
per axis and the velocity limit `max_shift_per_frame` (an int in the
source). -/
structure TransformSmoother where
  x_smoother : ExponentialSmoother
  y_smoother : ExponentialSmoother
  zoom_smoother : ExponentialSmoother
  max_shift_per_frame : ℤ
deriving DecidableEq

/-- `TransformSmoother.__init__(alpha, max_shift_per_frame)`. -/
def TransformSmoother.init (alpha : ℚ) (max_shift_per_frame : ℤ) :
    TransformSmoother :=
  { x_smoother := ExponentialSmoother.init alpha
    y_smoother := ExponentialSmoother.init alpha
    zoom_smoother := ExponentialSmoother.init alpha
    max_shift_per_frame := max_shift_per_frame }

/-- The velocity-limiting block that `TransformSmoother.smooth_transform`
repeats for the x and the y axis.  As in the source, the "previous" value is
read from the axis smoother's `smoothed_value` field at a point where
`smooth` has already overwritten that field with the new smoothed value. -/
def TransformSmoother.limitAxis (max_shift_per_frame : ℤ) (smoothed : ℚ)
    (s : ExponentialSmoother) : ℚ × ExponentialSmoother :=
  match s.smoothed_value with
  | none => (smoothed, s)
  | some prev =>
      let delta := smoothed - prev
      if |delta| > (max_shift_per_frame : ℚ) then
        let v := prev + (if delta > 0 then (max_shift_per_frame : ℚ)
                         else -(max_shift_per_frame : ℚ))
        (v, { s with smoothed_value := some v })
      else (smoothed, s)

/-- `TransformSmoother.smooth_transform(target_x, target_y, target_zoom)`:
smooth each axis, then apply the velocity-limiting block to x and y. -/
def TransformSmoother.smooth_transform (t : TransformSmoother)
    (target_x target_y target_zoom : ℚ) :
    (ℚ × ℚ × ℚ) × TransformSmoother :=
  let rx := t.x_smoother.smooth target_x
  let ry := t.y_smoother.smooth target_y
  let rz := t.zoom_smoother.smooth target_zoom
  let lx := TransformSmoother.limitAxis t.max_shift_per_frame rx.1 rx.2
  let ly := TransformSmoother.limitAxis t.max_shift_per_frame ry.1 ry.2
  ((lx.1, ly.1, rz.1),
   { t with x_smoother := lx.2, y_smoother := ly.2, zoom_smoother := rz.2 })

/-- `TransformSmoother.reset()`: resets all three axis smoothers. -/
def TransformSmoother.reset (t : TransformSmoother) : TransformSmoother :=
  { t with x_smoother := t.x_smoother.reset
           y_smoother := t.y_smoother.reset
           zoom_smoother := t.zoom_smoother.reset }

/-- `TransformSmoother.set_alpha(alpha)`: propagates the factor to all three
axis smoothers. -/
def TransformSmoother.set_alpha (t : TransformSmoother) (alpha : ℚ) :
    TransformSmoother :=
  { t with x_smoother := t.x_smoother.set_alpha alpha
           y_smoother := t.y_smoother.set_alpha alpha
           zoom_smoother := t.zoom_smoother.set_alpha alpha }

/-- `FaceDetection` (face_detector.py): bbox `(x, y, width, height)`,
confidence, and centre point. -/
structure FaceDetection where
  bbox : ℤ × ℤ × ℤ × ℤ
  confidence : ℚ
  center : ℤ × ℤ
deriving DecidableEq

/-- `TrackingStatus` (tracking_state.py). -/
inductive TrackingStatus where
  | TRACKING
  | LOST_RECENT
  | LOST_LONG
deriving DecidableEq

/-- State of `TrackingState` (tracking_state.py). -/
structure TrackingState where
  memory_duration : ℚ
  last_bbox : Option (ℤ × ℤ × ℤ × ℤ)
  last_detection_time : Option ℚ
  status : TrackingStatus
deriving DecidableEq

/-- `TrackingState.__init__(memory_duration)`. -/
def TrackingState.init (memory_duration : ℚ) : TrackingState :=
  { memory_duration := memory_duration
    last_bbox := none
    last_detection_time := none
    status := TrackingStatus.LOST_LONG }

/-- `TrackingState.update(detection, timestamp)`: a detection stores its bbox
and the timestamp and sets `TRACKING`; with no detection the status depends
on the time since the last detection (never any: `LOST_LONG`; less than
`memory_duration` ago: `LOST_RECENT`; otherwise `LOST_LONG`).  Returns the
status together with the updated state. -/
def TrackingState.update (s : TrackingState) (detection : Option FaceDetection)
    (timestamp : ℚ) : TrackingStatus × TrackingState :=
  match detection with
  | some d =>
      (TrackingStatus.TRACKING,
       { s with last_bbox := some d.bbox
                last_detection_time := some timestamp
                status := TrackingStatus.TRACKING })
  | none =>
      match s.last_detection_time with
      | none =>
          (TrackingStatus.LOST_LONG, { s with status := TrackingStatus.LOST_LONG })
      | some t0 =>
          let time_since_detection := timestamp - t0
          if time_since_detection < s.memory_duration then
            (TrackingStatus.LOST_RECENT,
             { s with status := TrackingStatus.LOST_RECENT })
          else
            (TrackingStatus.LOST_LONG,
             { s with status := TrackingStatus.LOST_LONG })

/-- `TrackingState.get_target_bbox()`: the last known bbox while the status
is `TRACKING` or `LOST_RECENT`, nothing otherwise. -/
def TrackingState.get_target_bbox (s : TrackingState) :
    Option (ℤ × ℤ × ℤ × ℤ) :=
  if s.status = TrackingStatus.TRACKING ∨ s.status = TrackingStatus.LOST_RECENT
  then s.last_bbox else none

/-- `TrackingState.reset()`. -/
def TrackingState.reset (s : TrackingState) : TrackingState :=
  { s with last_bbox := none
           last_detection_time := none
           status := TrackingStatus.LOST_LONG }

/-- Scenario driver for C3: a sequence of `update` calls that all pass no
detection, at the given timestamps. -/
def TrackingState.updateNones (s : TrackingState) : List ℚ → TrackingState
  | [] => s
  | t :: ts => ((s.update none t).2).updateNones ts

/-- An `update` call with no detection changes only the status field. -/
theorem update_none_fields (s : TrackingState) (t : ℚ) :
    ((s.update none t).2).last_bbox = s.last_bbox ∧
    ((s.update none t).2).last_detection_time = s.last_detection_time ∧
    ((s.update none t).2).memory_duration = s.memory_duration := by
  cases h : s.last_detection_time <;>
    simp [TrackingState.update, h] <;> split <;> simp

/-- A run of detection-free `update` calls changes only the status field. -/
theorem updateNones_fields (ts : List ℚ) (s : TrackingState) :
    ((s.updateNones ts)).last_bbox = s.last_bbox ∧
    ((s.updateNones ts)).last_detection_time = s.last_detection_time ∧
    ((s.updateNones ts)).memory_duration = s.memory_duration := by
  induction ts generalizing s with
  | nil => exact ⟨rfl, rfl, rfl⟩
  | cons t ts ih =>
      obtain ⟨h1, h2, h3⟩ := update_none_fields s t
      obtain ⟨g1, g2, g3⟩ := ih ((s.update none t).2)
      exact ⟨g1.trans h1, g2.trans h2, g3.trans h3⟩

/-- The state of the C3 scenario right after its single detection, received
at time 0 on a fresh `TrackingState`. -/
def c3afterDetection (d : FaceDetection) (m : ℚ) : TrackingState :=
  ((TrackingState.init m).update (some d) 0).2

/-- A concrete detection for the C3 witness. -/
def c3d : FaceDetection := ⟨(10, 20, 30, 40), 1, (25, 40)⟩

/-- C3: after a detection at time 0 followed by detection-free updates,
`update` returns `TRACKING` at time 0, `LOST_RECENT` at any time
`0 < t1 < memory_duration` and `LOST_LONG` at any time `t2 ≥ memory_duration`
(whatever detection-free updates happened in between); `get_target_bbox`
returns the original bbox exactly while `TRACKING` or `LOST_RECENT`, and
nothing while `LOST_LONG` — also on a fresh state that never saw a
detection. -/
theorem C3_tracking_then_loss (d : FaceDetection) (m t1 t2 : ℚ)
    (ts1 ts2 : List ℚ) (h1 : 0 < t1) (h2 : t1 < m) (h3 : m ≤ t2) :
    ((TrackingState.init m).update (some d) 0).1 = TrackingStatus.TRACKING ∧
    (c3afterDetection d m).get_target_bbox = some d.bbox ∧
    (((c3afterDetection d m).updateNones ts1).update none t1).1 =
      TrackingStatus.LOST_RECENT ∧
    ((((c3afterDetection d m).updateNones ts1).update none t1).2).get_target_bbox =
      some d.bbox ∧
    (((c3afterDetection d m).updateNones ts2).update none t2).1 =
      TrackingStatus.LOST_LONG ∧
    ((((c3afterDetection d m).updateNones ts2).update none t2).2).get_target_bbox =
      none ∧
    (TrackingState.init m).get_target_bbox = none := by
  obtain ⟨b1, b2, b3⟩ := updateNones_fields ts1 (c3afterDetection d m)
  obtain ⟨e1, e2, e3⟩ := updateNones_fields ts2 (c3afterDetection d m)
  have ht : (c3afterDetection d m).last_detection_time = some (0 : ℚ) := rfl
  have hd : (c3afterDetection d m).last_bbox = some d.bbox := rfl
  have hm : (c3afterDetection d m).memory_duration = m := rfl
  have hrec : ((c3afterDetection d m).updateNones ts1).update none t1 =
      (TrackingStatus.LOST_RECENT,
       { (c3afterDetection d m).updateNones ts1 with
         status := TrackingStatus.LOST_RECENT }) := by
    simp [TrackingState.update, b2.trans ht, b3.trans hm, sub_zero, h2]
  have hlong : ((c3afterDetection d m).updateNones ts2).update none t2 =
      (TrackingStatus.LOST_LONG,
       { (c3afterDetection d m).updateNones ts2 with
         status := TrackingStatus.LOST_LONG }) := by
    simp [TrackingState.update, e2.trans ht, e3.trans hm, sub_zero, not_lt.mpr h3]
  refine ⟨rfl, rfl, ?_, ?_, ?_, ?_, rfl⟩
  · rw [hrec]
  · rw [hrec]; simp [TrackingState.get_target_bbox, b1.trans hd]
  · rw [hlong]
  · rw [hlong]; simp [TrackingState.get_target_bbox]

/-- Witness for C3 with `memory_duration = 2`, detection-free updates at
times 1/2 (and 1/2, 5/2), probes at times 1 and 3. -/
theorem C3_witness :
    (0 : ℚ) < 1 ∧ (1 : ℚ) < 2 ∧ (2 : ℚ) ≤ 3 ∧
    (((TrackingState.init 2).update (some c3d) 0).1 = TrackingStatus.TRACKING ∧
     (c3afterDetection c3d 2).get_target_bbox = some c3d.bbox ∧
     (((c3afterDetection c3d 2).updateNones [1/2]).update none 1).1 =
       TrackingStatus.LOST_RECENT ∧
     ((((c3afterDetection c3d 2).updateNones [1/2]).update none 1).2).get_target_bbox =
       some c3d.bbox ∧
     (((c3afterDetection c3d 2).updateNones [1/2, 5/2]).update none 3).1 =
       TrackingStatus.LOST_LONG ∧
     ((((c3afterDetection c3d 2).updateNones [1/2, 5/2]).update none 3).2).get_target_bbox =
       none ∧
     (TrackingState.init 2).get_target_bbox = none) :=
  ⟨by norm_num, by norm_num, by norm_num,
   C3_tracking_then_loss c3d 2 1 3 [1/2] [1/2, 5/2]
     (by norm_num) (by norm_num) (by norm_num)⟩

/-- A video frame (a `numpy` array in the source), modelled as its list of
pixel rows. -/
structure Frame where
  pixels : List (List ℚ)
deriving DecidableEq

/-- `frame.shape[0]`: the number of rows. -/
def Frame.height (f : Frame) : ℕ := f.pixels.length

/-- `frame.shape[1]`: the row width (numpy arrays are rectangular; the model
reads it off the first row). -/
def Frame.width (f : Frame) : ℕ := (f.pixels.headD []).length

/-- `frame.size`: the total number of elements of the array. -/
def Frame.size (f : Frame) : ℕ := (f.pixels.map List.length).sum

/-- `frame[y1:y2, x1:x2]` as used by `_apply_transform` after its clamping
(indices there are nonnegative; slice ends are cut off at the array edge,
and an empty range yields an empty slice, as in Python). -/
def Frame.slice (f : Frame) (y1 y2 x1 x2 : ℤ) : Frame :=
  ⟨((f.pixels.drop y1.toNat).take (y2 - y1).toNat).map
    (fun row => (row.drop x1.toNat).take (x2 - x1).toNat)⟩

/-- Python `int()` on a float: truncation toward zero. -/
def pyInt (q : ℚ) : ℤ := if 0 ≤ q then ⌊q⌋ else ⌈q⌉

/-- `ProcessorConfig` (frame_processor.py): a plain dataclass; the
constructor stores the fields as given, with these defaults. -/
structure ProcessorConfig where
  target_face_ratio : ℚ := 2/5
  min_zoom : ℚ := 1
  max_zoom : ℚ := 3
  smoothing_factor : ℚ := 3/20
  max_shift_per_frame : ℤ := 50
deriving DecidableEq

/-- `AppConfig` (settings.py): a plain dataclass; the constructor stores the
fields as given, with these defaults. -/
structure AppConfig where
  camera_index : ℤ := 0
  resolution : ℤ × ℤ := (1280, 720)
  fps : ℤ := 30
  tracking_speed : ℚ := 3/20
  zoom_level : String := "medium"
  face_size_ratio : ℚ := 2/5
  min_detection_confidence : ℚ := 1/2
  max_cpu_percent : ℚ := 25
  enable_gpu : Bool := false
deriving DecidableEq

/-- State of `FrameProcessor` (frame_processor.py). -/
structure FrameProcessor where
  config : ProcessorConfig
  smoother : TransformSmoother
  frame_center : Option (ℤ × ℤ)
deriving DecidableEq

/-- `FrameProcessor.__init__(config)`. -/
def FrameProcessor.init (config : ProcessorConfig) : FrameProcessor :=
  { config := config
    smoother := TransformSmoother.init config.smoothing_factor
      config.max_shift_per_frame
    frame_center := none }

/-- `FrameProcessor._calculate_zoom(face_height, frame_height)`: `min_zoom`
for a non-positive face height, otherwise
`target_face_ratio / (face_height / frame_height)` clamped into
`[min_zoom, max_zoom]`. -/
def FrameProcessor.calculate_zoom (p : FrameProcessor) (face_height : ℤ)
    (frame_height : ℕ) : ℚ :=
  if face_height ≤ 0 then p.config.min_zoom
  else
    let current_ratio : ℚ := (face_height : ℚ) / (frame_height : ℚ)
    let target_zoom := p.config.target_face_ratio / current_ratio
    max p.config.min_zoom (min p.config.max_zoom target_zoom)

/-- `FrameProcessor._apply_transform(frame, center_x, center_y, zoom)`.  The
final `cv2.resize` call is external library code and is passed in as the
parameter `resize` (taking the region and the original width and height). -/
def FrameProcessor.apply_transform (resize : Frame → ℕ → ℕ → Frame)
    (frame : Frame) (center_x center_y : ℤ) (zoom : ℚ) : Frame :=
  let height := frame.height
  let width := frame.width
  let new_width := pyInt ((width : ℚ) / zoom)
  let new_height := pyInt ((height : ℚ) / zoom)
  let x1 := center_x - Int.fdiv new_width 2
  let y1 := center_y - Int.fdiv new_height 2
  let x1 := max 0 (min x1 ((width : ℤ) - new_width))
  let y1 := max 0 (min y1 ((height : ℤ) - new_height))
  let x2 := x1 + new_width
  let y2 := y1 + new_height
  let roi := frame.slice y1 y2 x1 x2
  resize roi width height

/-- `FrameProcessor.process(frame, target_bbox)`: a `None` or empty frame is
returned as is at once; otherwise the frame centre is recorded on first use,
a `None` target passes the frame through unchanged, and a bbox target is
smoothed and applied.  Returns the output frame together with the updated
processor state; `resize` stands for the external `cv2.resize`. -/
def FrameProcessor.process (resize : Frame → ℕ → ℕ → Frame)
    (p : FrameProcessor) (frame : Option Frame)
    (target_bbox : Option (ℤ × ℤ × ℤ × ℤ)) : Option Frame × FrameProcessor :=
  match frame with
  | none => (none, p)
  | some f =>
      if f.size = 0 then (some f, p)
      else
        let height := f.height
        let width := f.width
        let p := match p.frame_center with
                 | none => { p with
                             frame_center := some ((width / 2 : ℕ), (height / 2 : ℕ)) }
                 | some _ => p
        match target_bbox with
        | none => (some f, p)
        | some (x, y, w, h) =>
            let face_center_x := x + Int.fdiv w 2
            let face_center_y := y + Int.fdiv h 2
            let target_zoom := p.calculate_zoom h height
            let r := p.smoother.smooth_transform (face_center_x : ℚ)
              (face_center_y : ℚ) target_zoom
            let p := { p with smoother := r.2 }
            (some (FrameProcessor.apply_transform resize f (pyInt r.1.1)
              (pyInt r.1.2.1) r.1.2.2), p)

/-- `FrameProcessor.update_config(config)`: replaces the configuration,
propagates the smoothing factor through `TransformSmoother.set_alpha` and
assigns the new `max_shift_per_frame`. -/
def FrameProcessor.update_config (p : FrameProcessor)
    (config : ProcessorConfig) : FrameProcessor :=
  let s := p.smoother.set_alpha config.smoothing_factor
  { p with config := config
           smoother := { s with max_shift_per_frame := config.max_shift_per_frame } }

/-- The read/failure-handling state of `CameraController` as touched by the
top of `_process_loop` (controller.py): the consecutive-failure counter, the
running flag and the error message.  At `start()` the counter is 0, the
error is absent and the flag is set. -/
structure LoopState where
  frame_read_failures : ℕ
  running : Bool
  error_message : Option String
deriving DecidableEq

/-- The frame-read step at the top of one `_process_loop` iteration: a
`None` read increments the failure counter and, past 3, records "Camera
connection lost" and clears the running flag; a successful read resets the
counter to zero. -/
def processRead (st : LoopState) (frame : Option Frame) : LoopState :=
  match frame with
  | none =>
      let failures := st.frame_read_failures + 1
      if failures > 3 then
        { frame_read_failures := failures
          running := false
          error_message := some "Camera connection lost" }
      else { st with frame_read_failures := failures }
  | some _ => { st with frame_read_failures := 0 }

/-- `_process_loop` restricted to its read/failure handling: reads are
consumed one per iteration while the running flag holds; once the flag is
cleared the loop exits and the remaining reads are never taken. -/
def processLoop (st : LoopState) : List (Option Frame) → LoopState
  | [] => st
  | r :: rs => if st.running then processLoop (processRead st r) rs else st

/-- A stopped loop ignores every remaining read. -/
theorem processLoop_stopped (st : LoopState) (rs : List (Option Frame))
    (h : st.running = false) : processLoop st rs = st := by
  cases rs with
  | nil => rfl
  | cons r rs => simp [processLoop, h]

/-- C2: a successful read resets the consecutive-failure counter to 0 and a
`None` read increments it; three consecutive failed reads from a fresh loop
are tolerated (the loop keeps running with no error), while a fourth stops
the loop with the "Camera connection lost" error, and no later read is
consumed (no auto-retry). -/
theorem C2_read_failure_threshold (st : LoopState) (f : Frame)
    (rest : List (Option Frame)) :
    (processRead st (some f)).frame_read_failures = 0 ∧
    (processRead st none).frame_read_failures = st.frame_read_failures + 1 ∧
    processLoop ⟨0, true, none⟩ (List.replicate 3 none) = ⟨3, true, none⟩ ∧
    processLoop ⟨0, true, none⟩ (List.replicate 4 none ++ rest) =
      ⟨4, false, some "Camera connection lost"⟩ := by
  refine ⟨rfl, ?_, rfl, ?_⟩
  · simp only [processRead]
    split <;> rfl
  · have step : processLoop ⟨0, true, none⟩ (List.replicate 4 none ++ rest) =
        processLoop ⟨4, false, some "Camera connection lost"⟩ rest := by
      show processLoop ⟨0, true, none⟩ (none :: none :: none :: none :: rest) = _
      rfl
    rw [step]
    exact processLoop_stopped _ _ rfl

/-- C4: `_calculate_zoom` returns `min_zoom` for a non-positive face height
(no division happens: ℚ-division is total, and that branch never forms the
quotient), otherwise the ratio quotient clamped into `[min_zoom, max_zoom]`;
a face height equal to `frame_height * target_face_ratio` makes the
unclamped quotient exactly 1; and with the default configuration
(`ratio 2/5 = 0.4`, zoom bounds `[1, 3]`), face height 160 over frame height
720 gives 9/5 = 1.8, unclamped. -/
theorem C4_calculate_zoom (p : FrameProcessor) (h1 h2 h3 : ℤ) (fh fh3 : ℕ)
    (hle : h1 ≤ 0) (hpos : 0 < h2) (hpos3 : 0 < h3)
    (heq : (h3 : ℚ) = (fh3 : ℚ) * p.config.target_face_ratio) :
    p.calculate_zoom h1 fh = p.config.min_zoom ∧
    p.calculate_zoom h2 fh =
      max p.config.min_zoom (min p.config.max_zoom
        (p.config.target_face_ratio / ((h2 : ℚ) / (fh : ℚ)))) ∧
    p.config.target_face_ratio / ((h3 : ℚ) / (fh3 : ℚ)) = 1 ∧
    (FrameProcessor.init {}).calculate_zoom 160 720 = 9/5 := by
  have hq : (0 : ℚ) < (h3 : ℚ) := by exact_mod_cast hpos3
  have hf : (fh3 : ℚ) ≠ 0 := by
    intro h
    rw [heq, h, zero_mul] at hq
    exact lt_irrefl 0 hq
  have hr : p.config.target_face_ratio ≠ 0 := by
    intro h
    rw [heq, h, mul_zero] at hq
    exact lt_irrefl 0 hq
  refine ⟨?_, ?_, ?_, ?_⟩
  · simp [FrameProcessor.calculate_zoom, hle]
  · simp [FrameProcessor.calculate_zoom, not_le.mpr hpos]
  · rw [heq, mul_div_cancel_left₀ _ hf, div_self hr]
  · have e1 : min (3 : ℚ) ((2/5 : ℚ) / (((160 : ℤ) : ℚ) / ((720 : ℕ) : ℚ))) = 9/5 := by
      norm_num
    have e2 : max (1 : ℚ) (9/5 : ℚ) = 9/5 := by norm_num
    simp [FrameProcessor.calculate_zoom, FrameProcessor.init]
    norm_num

/-- Witness for C4 at face heights 0, 160 and 288 = 720 · 2/5 over frame
height 720, against the default configuration. -/
theorem C4_witness :
    (0 : ℤ) ≤ 0 ∧ (0 : ℤ) < 160 ∧ (0 : ℤ) < 288 ∧
    ((288 : ℤ) : ℚ) = ((720 : ℕ) : ℚ) * (2/5) ∧
    ((FrameProcessor.init {}).calculate_zoom 0 720 = 1 ∧
     (FrameProcessor.init {}).calculate_zoom 160 720 =
       max 1 (min 3 ((2/5 : ℚ) / (((160 : ℤ) : ℚ) / ((720 : ℕ) : ℚ)))) ∧
     (2/5 : ℚ) / (((288 : ℤ) : ℚ) / ((720 : ℕ) : ℚ)) = 1 ∧
     (FrameProcessor.init {}).calculate_zoom 160 720 = 9/5) :=
  ⟨by norm_num, by norm_num, by norm_num, by norm_num,
   C4_calculate_zoom (FrameProcessor.init {}) 0 160 288 720 720
     (by norm_num) (by norm_num) (by norm_num)
     (by show ((288 : ℤ) : ℚ) = ((720 : ℕ) : ℚ) * (2/5); norm_num)⟩

/-- The validity predicate the spec asserts is checked at configuration
construction (ratio in `(0,1)`, `1 ≤ min_zoom ≤ max_zoom`); stated from the
spec's words so the source constructors can be compared against it. -/
def specConfigValid (c : ProcessorConfig) : Prop :=
  0 < c.target_face_ratio ∧ c.target_face_ratio < 1 ∧
  1 ≤ c.min_zoom ∧ c.min_zoom ≤ c.max_zoom

instance (c : ProcessorConfig) : Decidable (specConfigValid c) := by
  unfold specConfigValid
  infer_instance

/-- C5 counterexample: constructing `ProcessorConfig` with `min_zoom = 1/2`
(violating the spec's `min_zoom ≥ 1`) is not rejected: the dataclass
constructor succeeds and stores the out-of-range value verbatim. -/
theorem C5_counterexample :
    (ProcessorConfig.mk (2/5) (1/2) 3 (3/20) 50).min_zoom = 1/2 ∧
    ¬ specConfigValid (ProcessorConfig.mk (2/5) (1/2) 3 (3/20) 50) := by
  refine ⟨rfl, fun hv => ?_⟩
  have h : (1 : ℚ) ≤ 1/2 := hv.2.2.1
  norm_num at h

/-- C5 (amended): neither `ProcessorConfig` nor `AppConfig` validates
anything at construction — both constructors are total and store every
field verbatim, whatever its value. -/
theorem C5_no_validation_at_construction (r mz xz sf : ℚ) (ms : ℤ)
    (ci : ℤ) (res : ℤ × ℤ) (fr : ℤ) (ts : ℚ) (zl : String) (fsr : ℚ)
    (mdc : ℚ) (mcp : ℚ) (eg : Bool) :
    (ProcessorConfig.mk r mz xz sf ms).target_face_ratio = r ∧
    (ProcessorConfig.mk r mz xz sf ms).min_zoom = mz ∧
    (ProcessorConfig.mk r mz xz sf ms).max_zoom = xz ∧
    (ProcessorConfig.mk r mz xz sf ms).smoothing_factor = sf ∧
    (ProcessorConfig.mk r mz xz sf ms).max_shift_per_frame = ms ∧
    (AppConfig.mk ci res fr ts zl fsr mdc mcp eg).tracking_speed = ts ∧
    (AppConfig.mk ci res fr ts zl fsr mdc mcp eg).face_size_ratio = fsr ∧
    (AppConfig.mk ci res fr ts zl fsr mdc mcp eg).min_detection_confidence = mdc :=
  ⟨rfl, rfl, rfl, rfl, rfl, rfl, rfl, rfl⟩

/-- C6: processing with no target bbox returns the input frame unchanged
(the very same value) and leaves the smoother state and the configuration
untouched, for any `resize` implementation. -/
theorem C6_no_target_passthrough (resize : Frame → ℕ → ℕ → Frame)
    (p : FrameProcessor) (frame : Option Frame) :
    (FrameProcessor.process resize p frame none).1 = frame ∧
    ((FrameProcessor.process resize p frame none).2).smoother = p.smoother ∧
    ((FrameProcessor.process resize p frame none).2).config = p.config := by
  match frame with
  | none => exact ⟨rfl, rfl, rfl⟩
  | some f =>
      by_cases hz : f.size = 0
      · simp [FrameProcessor.process, hz]
      · cases hc : p.frame_center <;>
          simp [FrameProcessor.process, hz, hc]

/-- C10: a missing frame, and a frame with no pixel data, are returned
unchanged without any state change, whatever the target bbox and the
`resize` implementation. -/
theorem C10_degenerate_frame_passthrough (resize : Frame → ℕ → ℕ → Frame)
    (p : FrameProcessor) (bbox : Option (ℤ × ℤ × ℤ × ℤ)) (f : Frame)
    (hz : f.size = 0) :
    FrameProcessor.process resize p none bbox = (none, p) ∧
    FrameProcessor.process resize p (some f) bbox = (some f, p) :=
  ⟨rfl, by simp [FrameProcessor.process, hz]⟩

/-- Witness for C10 on the empty frame with a concrete bbox. -/
theorem C10_witness :
    (Frame.mk []).size = 0 ∧
    (FrameProcessor.process (fun r _ _ => r) (FrameProcessor.init {}) none
        (some (0, 0, 10, 10)) = (none, FrameProcessor.init {}) ∧
     FrameProcessor.process (fun r _ _ => r) (FrameProcessor.init {})
        (some (Frame.mk [])) (some (0, 0, 10, 10)) =
       (some (Frame.mk []), FrameProcessor.init {})) :=
  ⟨rfl, C10_degenerate_frame_passthrough _ _ _ _ rfl⟩

/-- A processor with non-trivial accumulated smoothing history, for the C8
witness. -/
def c8p : FrameProcessor :=
  { config := {}
    smoother :=
      { x_smoother := ⟨3/20, some 5⟩
        y_smoother := ⟨3/20, some 6⟩
        zoom_smoother := ⟨3/20, some 7⟩
        max_shift_per_frame := 50 }
    frame_center := none }

/-- A replacement configuration for the C8 witness. -/
def c8c : ProcessorConfig := ⟨1/2, 1, 3, 1/4, 60⟩

/-- C8: `update_config` swaps the configuration and pushes the new smoothing
factor (verbatim when it lies in `[0,1]`, the clamp of `set_alpha` being the
identity there) and the new shift limit into the smoother, while every
stored smoothed value survives unchanged. -/
theorem C8_update_config_preserves_history (p : FrameProcessor)
    (c : ProcessorConfig) (h0 : 0 ≤ c.smoothing_factor)
    (h1 : c.smoothing_factor ≤ 1) :
    (p.update_config c).config = c ∧
    (p.update_config c).smoother.max_shift_per_frame = c.max_shift_per_frame ∧
    (p.update_config c).smoother.x_smoother.alpha = c.smoothing_factor ∧
    (p.update_config c).smoother.y_smoother.alpha = c.smoothing_factor ∧
    (p.update_config c).smoother.zoom_smoother.alpha = c.smoothing_factor ∧
    (p.update_config c).smoother.x_smoother.smoothed_value =
      p.smoother.x_smoother.smoothed_value ∧
    (p.update_config c).smoother.y_smoother.smoothed_value =
      p.smoother.y_smoother.smoothed_value ∧
    (p.update_config c).smoother.zoom_smoother.smoothed_value =
      p.smoother.zoom_smoother.smoothed_value := by
  have hc : clamp01 c.smoothing_factor = c.smoothing_factor := by
    simp [clamp01, min_eq_right h1, max_eq_right h0]
  refine ⟨rfl, rfl, ?_, ?_, ?_, rfl, rfl, rfl⟩ <;>
    simp [FrameProcessor.update_config, TransformSmoother.set_alpha,
      ExponentialSmoother.set_alpha, hc]

/-- Witness for C8: the smoother's stored values 5, 6, 7 survive an
`update_config` that changes the factor to 1/4 and the limit to 60. -/
theorem C8_witness :
    (0 : ℚ) ≤ c8c.smoothing_factor ∧ c8c.smoothing_factor ≤ 1 ∧
    ((c8p.update_config c8c).config = c8c ∧
     (c8p.update_config c8c).smoother.max_shift_per_frame =
       c8c.max_shift_per_frame ∧
     (c8p.update_config c8c).smoother.x_smoother.alpha = c8c.smoothing_factor ∧
     (c8p.update_config c8c).smoother.y_smoother.alpha = c8c.smoothing_factor ∧
     (c8p.update_config c8c).smoother.zoom_smoother.alpha =
       c8c.smoothing_factor ∧
     (c8p.update_config c8c).smoother.x_smoother.smoothed_value =
       c8p.smoother.x_smoother.smoothed_value ∧
     (c8p.update_config c8c).smoother.y_smoother.smoothed_value =
       c8p.smoother.y_smoother.smoothed_value ∧
     (c8p.update_config c8c).smoother.zoom_smoother.smoothed_value =
       c8p.smoother.zoom_smoother.smoothed_value) :=
  ⟨by norm_num [c8c], by norm_num [c8c],
   C8_update_config_preserves_history c8p c8c
     (by norm_num [c8c]) (by norm_num [c8c])⟩

/-- C1: the claim asserts that successive smoothed x/y outputs of
`smooth_transform` never differ by more than `max_shift_per_frame`, because
an excessive exponentially smoothed delta is clamped.  In the source the
"previous" stored value is read only after `smooth` has already overwritten
it with the new smoothed value (first conjunct), so the computed delta is
always 0 and the clamp never fires: with `alpha = 1/2` and
`max_shift_per_frame = 50`, target x values 0 then 1000 give smoothed x
outputs 0 then 500, successive outputs 500 apart — ten times the limit. -/
theorem C1_velocity_limit_never_fires :
    (∀ (s : ExponentialSmoother) (v : ℚ),
      (s.smooth v).2.smoothed_value = some (s.smooth v).1) ∧
    ((TransformSmoother.init (1/2) 50).smooth_transform 0 0 0).1.1 = 0 ∧
    (((TransformSmoother.init (1/2) 50).smooth_transform 0 0 0).2.smooth_transform
        1000 0 0).1.1 = 500 ∧
    |(((TransformSmoother.init (1/2) 50).smooth_transform 0 0 0).2.smooth_transform
        1000 0 0).1.1 -
      ((TransformSmoother.init (1/2) 50).smooth_transform 0 0 0).1.1| >
      ((50 : ℤ) : ℚ) := by
  refine ⟨fun s v => ?_, ?_⟩
  · cases h : s.smoothed_value <;> simp [ExponentialSmoother.smooth, h]
  · norm_num [TransformSmoother.init, TransformSmoother.smooth_transform,
      TransformSmoother.limitAxis, ExponentialSmoother.init,
      ExponentialSmoother.smooth, clamp01]

/-- C7: for `α ∈ [0, 1]`, the constructor stores `α` unchanged; the first
`smooth` call after construction or after `reset` returns its input exactly,
and a call on a smoother holding a previous value `p` returns
`alpha * v + (1 - alpha) * p`. -/
theorem C7_first_smooth_identity (a v p : ℚ) (s : ExponentialSmoother)
    (h0 : 0 ≤ a) (h1 : a ≤ 1) (hp : s.smoothed_value = some p) :
    ((ExponentialSmoother.init a).smooth v).1 = v ∧
    ((s.reset).smooth v).1 = v ∧
    (s.smooth v).1 = s.alpha * v + (1 - s.alpha) * p ∧
    (ExponentialSmoother.init a).alpha = a := by
  refine ⟨rfl, rfl, ?_, ?_⟩
  · simp [ExponentialSmoother.smooth, hp]
  · simp [ExponentialSmoother.init, clamp01, min_eq_right h1, max_eq_right h0]

/-- Witness for C7 at `α = 1/2`, input 3, against a smoother with factor 1/4
holding the value 7. -/
theorem C7_witness :
    (0 : ℚ) ≤ 1/2 ∧ (1/2 : ℚ) ≤ 1 ∧
    (ExponentialSmoother.mk (1/4) (some 7)).smoothed_value = some 7 ∧
    (((ExponentialSmoother.init (1/2)).smooth 3).1 = 3 ∧
     (((ExponentialSmoother.mk (1/4) (some 7)).reset).smooth 3).1 = 3 ∧
     ((ExponentialSmoother.mk (1/4) (some 7)).smooth 3).1 =
       (ExponentialSmoother.mk (1/4) (some 7)).alpha * 3 +
         (1 - (ExponentialSmoother.mk (1/4) (some 7)).alpha) * 7 ∧
     (ExponentialSmoother.init (1/2)).alpha = 1/2) :=
  ⟨by norm_num, by norm_num, rfl,
   C7_first_smooth_identity (1/2) 3 7 (ExponentialSmoother.mk (1/4) (some 7))
     (by norm_num) (by norm_num) rfl⟩

/-- The constructor's clamp keeps the factor nonnegative. -/
theorem clamp01_nonneg (a : ℚ) : 0 ≤ clamp01 a := le_max_left _ _

/-- The constructor's clamp keeps the factor at most one. -/
theorem clamp01_le_one (a : ℚ) : clamp01 a ≤ 1 :=
  max_le (by norm_num) (min_le_left _ _)

/-- `smooth` never changes the smoothing factor. -/
theorem smooth_alpha (s : ExponentialSmoother) (v : ℚ) :
    (s.smooth v).2.alpha = s.alpha := by
  cases h : s.smoothed_value <;> simp [ExponentialSmoother.smooth, h]

/-- `smooth` stores exactly the value it returns. -/
theorem smooth_stored (s : ExponentialSmoother) (v : ℚ) :
    (s.smooth v).2.smoothed_value = some ((s.smooth v).1) := by
  cases h : s.smoothed_value <;> simp [ExponentialSmoother.smooth, h]

/-- Smoothing one value from a stored value in `[lo, hi]`, with a factor in
`[0, 1]`, yields an output between `min lo v` and `max hi v`. -/
theorem smooth_some_bound (s : ExponentialSmoother) (v x lo hi : ℚ)
    (h0 : 0 ≤ s.alpha) (h1 : s.alpha ≤ 1) (hx : s.smoothed_value = some x)
    (hlo : lo ≤ x) (hhi : x ≤ hi) :
    min lo v ≤ (s.smooth v).1 ∧ (s.smooth v).1 ≤ max hi v := by
  have hv : (s.smooth v).1 = s.alpha * v + (1 - s.alpha) * x := by
    simp [ExponentialSmoother.smooth, hx]
  have h1' : 0 ≤ 1 - s.alpha := by linarith
  constructor
  · have a1 : min lo v ≤ v := min_le_right _ _
    have a2 : min lo v ≤ x := le_trans (min_le_left _ _) hlo
    calc min lo v = s.alpha * min lo v + (1 - s.alpha) * min lo v := by ring
      _ ≤ s.alpha * v + (1 - s.alpha) * x :=
          add_le_add (mul_le_mul_of_nonneg_left a1 h0)
            (mul_le_mul_of_nonneg_left a2 h1')
      _ = (s.smooth v).1 := hv.symm
  · have b1 : v ≤ max hi v := le_max_right _ _
    have b2 : x ≤ max hi v := le_trans hhi (le_max_left _ _)
    calc (s.smooth v).1 = s.alpha * v + (1 - s.alpha) * x := hv
      _ ≤ s.alpha * max hi v + (1 - s.alpha) * max hi v :=
          add_le_add (mul_le_mul_of_nonneg_left b1 h0)
            (mul_le_mul_of_nonneg_left b2 h1')
      _ = max hi v := by ring

/-- Running a list of inputs from a stored value in `[lo, hi]` leaves the
stored value between the running minimum and maximum. -/
theorem runList_stored_bound (t : List ℚ) :
    ∀ (s : ExponentialSmoother) (x lo hi : ℚ), 0 ≤ s.alpha → s.alpha ≤ 1 →
      s.smoothed_value = some x → lo ≤ x → x ≤ hi →
      ∀ w, ((s.runList t).2).smoothed_value = some w →
        t.foldl min lo ≤ w ∧ w ≤ t.foldl max hi := by
  induction t with
  | nil =>
      intro s x lo hi _ _ hx hlo hhi w hw
      simp only [ExponentialSmoother.runList] at hw
      rw [hx] at hw
      obtain rfl : x = w := Option.some.inj hw
      exact ⟨hlo, hhi⟩
  | cons v vs ih =>
      intro s x lo hi h0 h1 hx hlo hhi w hw
      have hb := smooth_some_bound s v x lo hi h0 h1 hx hlo hhi
      have ha : (s.smooth v).2.alpha = s.alpha := smooth_alpha s v
      exact ih (s.smooth v).2 (s.smooth v).1 (min lo v) (max hi v)
        (by rw [ha]; exact h0) (by rw [ha]; exact h1)
        (smooth_stored s v) hb.1 hb.2 w hw

/-- From a fresh smoother, after a nonempty run the stored value lies
between the minimum and the maximum of the inputs. -/
theorem runList_head_bound (a x : ℚ) (t : List ℚ) (w : ℚ)
    (hw : (((ExponentialSmoother.init a).runList (x :: t)).2).smoothed_value =
      some w) :
    t.foldl min x ≤ w ∧ w ≤ t.foldl max x := by
  have h0 : 0 ≤ ((ExponentialSmoother.init a).smooth x).2.alpha := by
    rw [smooth_alpha]; exact clamp01_nonneg a
  have h1 : ((ExponentialSmoother.init a).smooth x).2.alpha ≤ 1 := by
    rw [smooth_alpha]; exact clamp01_le_one a
  exact runList_stored_bound t ((ExponentialSmoother.init a).smooth x).2 x x x
    h0 h1 rfl le_rfl le_rfl w hw

/-- Running an appended list is running the two parts in sequence. -/
theorem runList_append (xs ys : List ℚ) :
    ∀ s : ExponentialSmoother,
      s.runList (xs ++ ys) =
        ((s.runList xs).1 ++ ((s.runList xs).2.runList ys).1,
         ((s.runList xs).2.runList ys).2) := by
  induction xs with
  | nil => intro s; simp [ExponentialSmoother.runList]
  | cons v vs ih => intro s; simp [ExponentialSmoother.runList, ih]

/-- A run returns one output per input. -/
theorem runList_length (l : List ℚ) :
    ∀ s : ExponentialSmoother, ((s.runList l).1).length = l.length := by
  induction l with
  | nil => intro s; rfl
  | cons v vs ih => intro s; simp [ExponentialSmoother.runList, ih]

/-- C9: in any run of a fresh `ExponentialSmoother` (whatever factor was
passed to the constructor — it is clamped into `[0,1]`), the output returned
for an input `v` preceded by the inputs `pre` lies between the minimum and
the maximum of the inputs seen so far (`pre ++ [v]`, written `y :: ys`);
that output is precisely the entry at position `pre.length` of the outputs
of the whole run, whatever inputs follow. -/
theorem C9_output_bounded_by_history (a v y : ℚ) (pre post ys : List ℚ)
    (hseen : pre ++ [v] = y :: ys) :
    ys.foldl min y ≤ (((ExponentialSmoother.init a).runList pre).2.smooth v).1 ∧
    (((ExponentialSmoother.init a).runList pre).2.smooth v).1 ≤
      ys.foldl max y ∧
    (((ExponentialSmoother.init a).runList (pre ++ v :: post)).1).get?
        pre.length =
      some ((((ExponentialSmoother.init a).runList pre).2.smooth v).1) := by
  have hstored : (((ExponentialSmoother.init a).runList (pre ++ [v])).2).smoothed_value =
      some ((((ExponentialSmoother.init a).runList pre).2.smooth v).1) := by
    rw [runList_append pre [v] (ExponentialSmoother.init a)]
    exact smooth_stored _ v
  rw [hseen] at hstored
  have hbound := runList_head_bound a y ys _ hstored
  refine ⟨hbound.1, hbound.2, ?_⟩
  have hlen : (((ExponentialSmoother.init a).runList pre).1).length = pre.length :=
    runList_length pre (ExponentialSmoother.init a)
  rw [runList_append pre (v :: post) (ExponentialSmoother.init a)]
  rw [List.get?_append_right (le_of_eq hlen)]
  rw [hlen, Nat.sub_self]
  rfl

/-- Witness for C9: constructor factor 2 (clamped to 1), inputs 3 then 5
then 4; the output for 5 is bounded by min 3 and max 5 of the inputs seen
and sits at position 1 of the run's outputs. -/
theorem C9_witness :
    ([3] : List ℚ) ++ [5] = [3, 5] ∧
    (([5] : List ℚ).foldl min 3 ≤
       (((ExponentialSmoother.init 2).runList [3]).2.smooth 5).1 ∧
     (((ExponentialSmoother.init 2).runList [3]).2.smooth 5).1 ≤
       ([5] : List ℚ).foldl max 3 ∧
     (((ExponentialSmoother.init 2).runList ([3] ++ 5 :: [4])).1).get?
         ([3] : List ℚ).length =
       some ((((ExponentialSmoother.init 2).runList [3]).2.smooth 5).1)) :=
  ⟨rfl, C9_output_bounded_by_history 2 5 3 [3] [4] [5] rfl⟩

end SmartCamera
